import Mathlib

/-!
Shallow embedding of the ai-writing-assistant backend
(`src/app/llm_client.py` and `src/app/main.py`) together with proofs about
the text-improvement fallback chain and the license ledger.

External effects are modelled as explicit parameters: the outcome of each
LLM backend call, the "today" value of `datetime.utcnow().date()`, the
loaded ledger dictionary, the Razorpay configuration flag and the outcome
of signature verification.  Dates are civil (year, month, day) triples with
the same validity range as Python's `datetime.date` (years 1..9999).
-/

namespace AIWA

/-! ## Characters and Python-style string helpers -/

/-- Value of an ASCII digit character, `none` for non-digits. -/
def digit? (c : Char) : Option Nat :=
  if 48 ≤ c.toNat && c.toNat ≤ 57 then some (c.toNat - 48) else none

/-- The ASCII digit character for `n < 10`. -/
def digitChar (n : Nat) : Char := Char.ofNat (48 + n)

/-- ASCII lower-casing of one character (model of `str.lower` on the
ASCII range, which is all the program's configuration uses). -/
def lcChar (c : Char) : Char :=
  if 65 ≤ c.toNat && c.toNat ≤ 90 then Char.ofNat (c.toNat + 32) else c

/-- Python `str.strip` whitespace class. -/
def isWs (c : Char) : Bool :=
  c.toNat = 32 || c.toNat = 9 || c.toNat = 10 || c.toNat = 13 ||
    c.toNat = 11 || c.toNat = 12

/-- Strip leading and trailing whitespace from a character list
(model of Python `str.strip()`). -/
def trimL (l : List Char) : List Char :=
  ((l.dropWhile isWs).reverse.dropWhile isWs).reverse

/-- Python `s.strip()`. -/
def pyStrip (s : String) : String := ⟨trimL s.data⟩

/-- Python `s.strip().lower()`: the email normalization used throughout
`main.py`. -/
def normEmail (s : String) : String := ⟨(trimL s.data).map lcChar⟩

/-! ## Dates: model of `datetime.date`, `strptime`/`strftime` with
format `%Y-%m-%d`, and `timedelta` day addition -/

structure Date where
  year : Nat
  month : Nat
  day : Nat
deriving DecidableEq, Repr

/-- Gregorian leap year. -/
def isLeap (y : Nat) : Bool := (y % 4 == 0 && y % 100 != 0) || y % 400 == 0

/-- Length of a month. -/
def daysInMonth (y m : Nat) : Nat :=
  if m == 2 then (if isLeap y then 29 else 28)
  else if m == 4 || m == 6 || m == 9 || m == 11 then 30
  else 31

/-- A civil date acceptable to Python's `datetime.date` constructor,
except the MAXYEAR bound which is tracked separately. -/
def validCivil (d : Date) : Bool :=
  1 ≤ d.year && 1 ≤ d.month && d.month ≤ 12 &&
    1 ≤ d.day && d.day ≤ daysInMonth d.year d.month

/-- `datetime.date` ordering (`a < b`): lexicographic on (year, month, day). -/
def dateLt (a b : Date) : Bool :=
  a.year < b.year ||
    (a.year == b.year &&
      (a.month < b.month || (a.month == b.month && a.day < b.day)))

/-- Successor day in the civil calendar. -/
def nextDay (d : Date) : Date :=
  if d.day < daysInMonth d.year d.month then ⟨d.year, d.month, d.day + 1⟩
  else if d.month < 12 then ⟨d.year, d.month + 1, 1⟩
  else ⟨d.year + 1, 1, 1⟩

/-- Add `n` days to a civil date. -/
def addDays (d : Date) : Nat → Date
  | 0 => d
  | n + 1 => nextDay (addDays d n)

/-- Python `date + timedelta(days = n)`: the result, or `none` when the
addition overflows `date.max` (year 9999) and raises `OverflowError`. -/
def pyAddDays (d : Date) (n : Nat) : Option Date :=
  let r := addDays d n
  if r.year ≤ 9999 then some r else none

/-- Zero-padded two-digit decimal rendering. -/
def pad2 (n : Nat) : String := ⟨[digitChar (n / 10 % 10), digitChar (n % 10)]⟩

/-- Zero-padded four-digit decimal rendering. -/
def pad4 (n : Nat) : String :=
  ⟨[digitChar (n / 1000 % 10), digitChar (n / 100 % 10),
    digitChar (n / 10 % 10), digitChar (n % 10)]⟩

/-- Python `d.strftime("%Y-%m-%d")`. -/
def formatDate (d : Date) : String :=
  pad4 d.year ++ "-" ++ pad2 d.month ++ "-" ++ pad2 d.day

/-- Two ASCII digits as a number. -/
def d2 (a b : Char) : Option Nat :=
  match digit? a, digit? b with
  | some x, some y => some (10 * x + y)
  | _, _ => none

/-- Four ASCII digits as a number. -/
def d4 (a b c e : Char) : Option Nat :=
  match digit? a, digit? b, digit? c, digit? e with
  | some x, some y, some z, some w => some (1000 * x + 100 * y + 10 * z + w)
  | _, _, _, _ => none

/-- Python's `datetime.date(y, m, d)` constructor: `none` models the
`ValueError` on an out-of-range component. -/
def mkDate (y m d : Nat) : Option Date :=
  if 1 ≤ y && y ≤ 9999 && 1 ≤ m && m ≤ 12 && 1 ≤ d && d ≤ daysInMonth y m
  then some ⟨y, m, d⟩ else none

/-- Python `datetime.strptime(s, "%Y-%m-%d").date()`: `none` models the
`ValueError` raised on a malformed string.  `%Y` is exactly four digits;
`%m` and `%d` accept one or two digits; the whole string must be consumed;
the resulting components must form a real calendar date. -/
def parseDate (s : String) : Option Date :=
  match s.data with
  | [a, b, c, e, s1, f, g, s2, h, i] =>
    if s1 = '-' && s2 = '-' then
      match d4 a b c e, d2 f g, d2 h i with
      | some y, some m, some d => mkDate y m d
      | _, _, _ => none
    else none
  | [a, b, c, e, s1, f, s2, h, i] =>
    if s1 = '-' && s2 = '-' then
      match d4 a b c e, digit? f, d2 h i with
      | some y, some m, some d => mkDate y m d
      | _, _, _ => none
    else if s1 = '-' && h = '-' then
      match d4 a b c e, d2 f s2, digit? i with
      | some y, some m, some d => mkDate y m d
      | _, _, _ => none
    else none
  | [a, b, c, e, s1, f, s2, h] =>
    if s1 = '-' && s2 = '-' then
      match d4 a b c e, digit? f, digit? h with
      | some y, some m, some d => mkDate y m d
      | _, _, _ => none
    else none
  | _ => none

/-! ## `llm_client.py`: the completion fallback chain

The outcome of one `client.chat.completions.create` call is either a
response content string (with `None` coalesced to `""` as in
`response.choices[0].message.content or ""`) or one of the three caught
exception classes. -/

inductive BackendOutcome where
  | content (s : String)
  | rateLimitError
  | apiError
  | notFoundError
deriving DecidableEq, Repr

/-- `_try_model`: trim the response, turn an empty trimmed response or a
caught exception into `None`. -/
def try_model (o : BackendOutcome) : Option String :=
  match o with
  | .content s => let out := pyStrip s; if out = "" then none else some out
  | .rateLimitError => none
  | .apiError => none
  | .notFoundError => none

/-- `improve_text`: iterate `FREE_MODELS` (here: the list of the outcomes
each configured backend would produce), returning the first `_try_model`
success, or the original text if every backend fails. -/
def improve_text (backends : List BackendOutcome) (text : String) : String :=
  match backends with
  | [] => text
  | b :: rest =>
    match try_model b with
    | some out => out
    | none => improve_text rest text

/-- `improve_text` instrumented with the number of backends actually
invoked (each invoked backend receives exactly one `_try_model` call). -/
def improve_run (backends : List BackendOutcome) (text : String) :
    String × Nat :=
  match backends with
  | [] => (text, 0)
  | b :: rest =>
    match try_model b with
    | some out => (out, 1)
    | none =>
      let r := improve_run rest text
      (r.1, r.2 + 1)

/-! ## `main.py`: license ledger

The loaded `licenses.json` dictionary is an association list from email to
record, a record being its optional `"expiry"` string field.  A corrupt or
missing file is already collapsed to the empty dictionary by
`_load_licenses`, so claims about arbitrary ledger states quantify over
arbitrary association lists. -/

abbrev Ledger := List (String × Option String)

/-- Dictionary lookup: `email in licenses` / `licenses[email]`. -/
def lookupRec : Ledger → String → Option (Option String)
  | [], _ => none
  | (k, w) :: rest, e => if k = e then some w else lookupRec rest e

/-- Dictionary update `licenses[email] = {"expiry": v}`. -/
def setRec : Ledger → String → Option String → Ledger
  | [], e, v => [(e, v)]
  | (k, w) :: rest, e, v =>
    if k = e then (e, v) :: rest else (k, w) :: setRec rest e v

/-- The sentinel far-future expiry written for free-tier emails. -/
def sentinelExpiry : String := "2099-12-31"

/-- `_set_license(email, months)`.  `today` stands for
`datetime.utcnow().date()` and `freeEmails` for `FREE_LICENSE_EMAILS`.
Returns the expiry string and the rewritten ledger, or `none` when the
date addition overflows Python's `date.max` (an uncaught `OverflowError`). -/
def set_license (today : Date) (freeEmails : List String) (ledger : Ledger)
    (email : String) (months : Nat) : Option (String × Ledger) :=
  let e := normEmail email
  if freeEmails.contains e then
    some (sentinelExpiry, setRec ledger e (some sentinelExpiry))
  else
    let base : Date :=
      match lookupRec ledger e with
      | some (some s) =>
        match parseDate s with
        | some old => if dateLt today old then old else today
        | none => today
      | _ => today
    match pyAddDays base (30 * months) with
    | some newExpiry =>
      let estr := formatDate newExpiry
      some (estr, setRec ledger e (some estr))
    | none => none

/-- `_check_license(email)`: returns `(active, expiry)`.  The
`if not expiry_str` test is Python truthiness, so a missing field and an
empty string both yield `(False, None)`. -/
def check_license (today : Date) (freeEmails : List String) (ledger : Ledger)
    (email : String) : Bool × Option String :=
  let e := normEmail email
  if freeEmails.contains e then (true, some sentinelExpiry)
  else
    match lookupRec ledger e with
    | none => (false, none)
    | some rec =>
      match rec with
      | none => (false, none)
      | some s =>
        if s = "" then (false, none)
        else
          match parseDate s with
          | none => (false, some s)
          | some d => if dateLt d today then (false, some s) else (true, some s)

/-! ## `main.py`: payment routes

`configured` stands for `razor_client is not None`; the identifiers the
provider would return and the outcome of
`utility.verify_payment_signature` are oracle parameters. -/

structure CreateOrderResponse where
  order_id : String
  amount : Nat
  currency : String
  key_id : String
deriving DecidableEq, Repr

/-- `create_order`: HTTP 500 when Razorpay is unconfigured, HTTP 400 for a
free-tier email, otherwise an order of `99 * 100` paise in INR. -/
def create_order (configured : Bool) (keyId : String)
    (freeEmails : List String) (email : String) (orderId : String) :
    Except (Nat × String) CreateOrderResponse :=
  if !configured then .error (500, "Payment not configured")
  else
    let e := normEmail email
    if freeEmails.contains e then
      .error (400, "This email does not require payment.")
    else
      let amount_paise := 99 * 100
      .ok ⟨orderId, amount_paise, "INR", keyId⟩

/-- Result of `activate_license`: a success response with the expiry and
the ledger state after the call, an `HTTPException`, or an uncaught
overflow from the date arithmetic. -/
inductive ActOut where
  | success (expiry : String) (ledger : Ledger)
  | httpError (code : Nat) (detail : String) (ledger : Ledger)
  | overflow
deriving DecidableEq

/-- `activate_license`: 500 when unconfigured; free-tier emails are granted
via `_set_license(email, months=12)` with no signature check; otherwise a
failed signature verification raises HTTP 400 before any ledger write, and
a successful one grants one month. -/
def activate_license (configured verifyOk : Bool) (today : Date)
    (freeEmails : List String) (ledger : Ledger) (email : String) : ActOut :=
  if !configured then .httpError 500 "Payment not configured" ledger
  else
    let e := normEmail email
    if freeEmails.contains e then
      match set_license today freeEmails ledger e 12 with
      | some (exp, l2) => .success exp l2
      | none => .overflow
    else if !verifyOk then .httpError 400 "Invalid payment signature" ledger
    else
      match set_license today freeEmails ledger e 1 with
      | some (exp, l2) => .success exp l2
      | none => .overflow

/-! ## Spec-side definitions used by refinement claims -/

/-- Maximum of two dates under the `datetime.date` order. -/
def maxDate (a b : Date) : Date := if dateLt a b then b else a

/-- The base date in the words of the spec: the maximum of today and the
stored expiry when one is present, parseable and strictly after today. -/
def specBase (today : Date) (ledger : Ledger) (emailNorm : String) : Date :=
  match lookupRec ledger emailNorm with
  | some (some s) =>
    match parseDate s with
    | some old => if dateLt today old then maxDate today old else today
    | none => today
  | _ => today

/-- The guard of `_check_license`'s malformed-expiry diagnostic branch: a
stored, truthy expiry string that fails to parse. -/
def malformedExpiryBranch (ledger : Ledger) (emailNorm : String) : Bool :=
  match lookupRec ledger emailNorm with
  | some (some s) => !(s = "") && (parseDate s).isNone
  | _ => false

/-! ## Lemmas and claim theorems: completion fallback chain -/

theorem improve_text_eq_run (backends : List BackendOutcome) (text : String) :
    improve_text backends text = (improve_run backends text).1 := by
  induction backends with
  | nil => rfl
  | cons b rest ih =>
    simp only [improve_text, improve_run]
    cases try_model b <;> simp [ih]

/-- C1: if every backend in the Backend List yields no result (a
rate-limit, generic, or not-found error, or an empty/whitespace-only
response string), then `improve_text` returns the original input text
unchanged, for every input text.  Tone and language only enter the
instruction prompt, whose effect on each backend is abstracted by that
backend's outcome. -/
theorem improve_text_fail_open (backends : List BackendOutcome) (text : String)
    (h : ∀ b ∈ backends,
      b = BackendOutcome.rateLimitError ∨ b = BackendOutcome.apiError ∨
        b = BackendOutcome.notFoundError ∨
        ∃ s, b = BackendOutcome.content s ∧ pyStrip s = "") :
    improve_text backends text = text := by
  induction backends with
  | nil => rfl
  | cons b rest ih =>
    have hb : try_model b = none := by
      rcases h b (List.mem_cons_self b rest) with h1 | h1 | h1 | ⟨s, h1, h2⟩
      · subst h1; rfl
      · subst h1; rfl
      · subst h1; rfl
      · subst h1; simp [try_model, h2]
    simp only [improve_text, hb]
    exact ih fun b hbmem => h b (List.mem_cons_of_mem _ hbmem)

theorem improve_text_fail_open_witness :
    improve_text
      [BackendOutcome.rateLimitError, BackendOutcome.content "   ",
        BackendOutcome.apiError, BackendOutcome.notFoundError] "orig" =
      "orig" := by
  apply improve_text_fail_open
  intro b hb
  simp only [List.mem_cons, List.not_mem_nil, or_false] at hb
  rcases hb with h | h | h | h
  · exact Or.inl h
  · exact Or.inr (Or.inr (Or.inr ⟨"   ", h, by decide⟩))
  · exact Or.inr (Or.inl h)
  · exact Or.inr (Or.inr (Or.inl h))

/-- C2: `improve_text` walks the Backend List in order, attempting each
backend exactly once; if the backends strictly before position `i` all
yield no result and backend `i` yields the trimmed result `out`, then
the chain returns `out` after invoking exactly `i + 1` backends, so the
backends after position `i` are never invoked. -/
theorem improve_first_success (backends : List BackendOutcome) (text : String)
    (i : Nat) (bi : BackendOutcome) (out : String)
    (hget : backends[i]? = some bi)
    (hsucc : try_model bi = some out)
    (hfail : ∀ j, j < i → ∀ b, backends[j]? = some b → try_model b = none) :
    improve_text backends text = out ∧
      improve_run backends text = (out, i + 1) := by
  have hrun : improve_run backends text = (out, i + 1) := by
    induction backends generalizing i with
    | nil => simp at hget
    | cons b rest ih =>
      cases i with
      | zero =>
        simp only [List.getElem?_cons_zero, Option.some.injEq] at hget
        subst hget
        simp [improve_run, hsucc]
      | succ n =>
        have hb0 : try_model b = none :=
          hfail 0 (Nat.succ_pos n) b (by simp)
        have hrest : improve_run rest text = (out, n + 1) := by
          apply ih
          · simpa using hget
          · intro j hj bb hbb
            exact hfail (j + 1) (Nat.succ_lt_succ hj) bb (by simpa using hbb)
        simp [improve_run, hb0, hrest]
  exact ⟨by rw [improve_text_eq_run, hrun], hrun⟩

theorem improve_first_success_witness :
    improve_text
        [BackendOutcome.rateLimitError, BackendOutcome.content " ok ",
          BackendOutcome.content "later"] "orig" = "ok" ∧
      improve_run
        [BackendOutcome.rateLimitError, BackendOutcome.content " ok ",
          BackendOutcome.content "later"] "orig" = ("ok", 2) := by
  apply improve_first_success _ _ 1 (BackendOutcome.content " ok ") "ok"
  · rfl
  · decide
  · intro j hj b hb
    interval_cases j
    simp only [List.getElem?_cons_zero, Option.some.injEq] at hb
    subst hb
    rfl

/-! ## Claim theorems: license checks and payment routes -/

theorem parseDate_empty : parseDate "" = none := rfl

/-- C5: for every email in the Free-Email Set, `_check_license` returns
`active = true` with the fixed far-future sentinel expiry, for every
ledger state: the ledger argument is universally quantified, so the result
does not depend on ledger contents (a missing or corrupt file is loaded
as the empty dictionary, a special case of this quantification). -/
theorem check_license_free (today : Date) (freeEmails : List String)
    (ledger : Ledger) (email : String)
    (hfree : normEmail email ∈ freeEmails) :
    check_license today freeEmails ledger email = (true, some sentinelExpiry) := by
  simp [check_license, hfree]

theorem check_license_free_witness :
    check_license ⟨2026, 10, 12⟩ ["owner@x.com"] [("owner@x.com", some "oops")]
        " Owner@X.com" = (true, some sentinelExpiry) :=
  check_license_free ⟨2026, 10, 12⟩ ["owner@x.com"]
    [("owner@x.com", some "oops")] " Owner@X.com" (by decide)

/-- C6: for a non-free-tier email whose stored expiry parses to the date
`d`, `_check_license` reports active iff `d` is not strictly before
today: the comparison is inclusive, so an expiry equal to today is active
and an expiry equal to yesterday is inactive. -/
theorem check_license_parse_boundary (today d : Date)
    (freeEmails : List String) (ledger : Ledger) (email s : String)
    (hfree : normEmail email ∉ freeEmails)
    (hrec : lookupRec ledger (normEmail email) = some (some s))
    (hparse : parseDate s = some d) :
    check_license today freeEmails ledger email = (!dateLt d today, some s) := by
  have hs : ¬(s = "") := by
    intro h
    rw [h, parseDate_empty] at hparse
    exact Option.noConfusion hparse
  cases hlt : dateLt d today <;>
    simp [check_license, hfree, hrec, hs, hparse, hlt]

theorem check_license_parse_boundary_witness :
    check_license ⟨2026, 10, 12⟩ [] [("a@b.c", some "2026-10-12")] "a@b.c" =
        (true, some "2026-10-12") ∧
      check_license ⟨2026, 10, 12⟩ [] [("a@b.c", some "2026-10-11")] "a@b.c" =
        (false, some "2026-10-11") := by
  constructor
  · exact (check_license_parse_boundary ⟨2026, 10, 12⟩ ⟨2026, 10, 12⟩ []
      [("a@b.c", some "2026-10-12")] "a@b.c" "2026-10-12" (by decide)
      (by decide) (by decide)).trans (by decide)
  · exact (check_license_parse_boundary ⟨2026, 10, 12⟩ ⟨2026, 10, 11⟩ []
      [("a@b.c", some "2026-10-11")] "a@b.c" "2026-10-11" (by decide)
      (by decide) (by decide)).trans (by decide)

/-- C8 (counterexample): a stored record whose expiry is the empty string
fails to parse, yet `_check_license` returns `(false, none)` rather than
the raw unparsed string, because `if not expiry_str` is Python
truthiness. -/
theorem check_license_malformed_cex :
    parseDate "" = none ∧
      check_license ⟨2026, 10, 12⟩ [] [("a@b.c", some "")] "a@b.c" =
        (false, none) ∧
      (false, (none : Option String)) ≠ (false, some "") := by decide

/-- C8 (amended): for a non-free-tier email whose stored record has a
non-empty expiry string that fails to parse, `_check_license` returns
`active = false` together with the raw unparsed expiry string; a record
whose expiry is the empty string instead yields `(false, none)`. -/
theorem check_license_malformed (today : Date) (freeEmails : List String)
    (ledger : Ledger) (email s : String)
    (hfree : normEmail email ∉ freeEmails)
    (hrec : lookupRec ledger (normEmail email) = some (some s))
    (hne : ¬(s = ""))
    (hparse : parseDate s = none) :
    check_license today freeEmails ledger email = (false, some s) := by
  simp [check_license, hfree, hrec, hne, hparse]

theorem check_license_malformed_witness :
    check_license ⟨2026, 10, 12⟩ [] [("a@b.c", some "not-a-date")] "a@b.c" =
      (false, some "not-a-date") :=
  check_license_malformed ⟨2026, 10, 12⟩ [] [("a@b.c", some "not-a-date")]
    "a@b.c" "not-a-date" (by decide) (by decide) (by decide) (by decide)

/-- C4: with the payment provider configured, activating a non-free-tier
email with a triple that fails signature verification raises the
user-facing HTTP 400 "Invalid payment signature" error, and the ledger
after the call is exactly the ledger before it (no record created or
modified). -/
theorem activate_invalid_signature (today : Date) (freeEmails : List String)
    (ledger : Ledger) (email : String)
    (hfree : normEmail email ∉ freeEmails) :
    activate_license true false today freeEmails ledger email =
      ActOut.httpError 400 "Invalid payment signature" ledger := by
  simp [activate_license, hfree]

theorem activate_invalid_signature_witness :
    activate_license true false ⟨2026, 10, 12⟩ []
        [("other@x.com", some "2026-01-01")] "u@x.com" =
      ActOut.httpError 400 "Invalid payment signature"
        [("other@x.com", some "2026-01-01")] :=
  activate_invalid_signature ⟨2026, 10, 12⟩ []
    [("other@x.com", some "2026-01-01")] "u@x.com" (by decide)

/-- C9 (counterexample): for a free-tier email with the payment provider
unconfigured, `create_order` rejects with the 500 "Payment not
configured" error, not with the 400 free-tier error the claim asserts
for every free-tier email: the unconfigured check runs first. -/
theorem create_order_free_unconfigured_cex :
    create_order false "k" ["owner@x.com"] "owner@x.com" "oid" =
        Except.error (500, "Payment not configured") ∧
      (Except.error (500, "Payment not configured") :
          Except (Nat × String) CreateOrderResponse) ≠
        Except.error (400, "This email does not require payment.") :=
  ⟨rfl, by simp⟩

/-- C9 (amended): `create_order` rejects with a 500 error whenever the
payment provider is unconfigured (this check runs first, even for
free-tier emails); when configured it rejects with a 400 user-facing
error for free-tier emails; only when neither condition holds does it
create an order of the fixed amount (99 × 100 paise) and fixed currency
INR and return its identifiers. -/
theorem create_order_spec (configured : Bool) (keyId : String)
    (freeEmails : List String) (email orderId : String) :
    (configured = false →
      create_order configured keyId freeEmails email orderId =
        Except.error (500, "Payment not configured")) ∧
    (configured = true → normEmail email ∈ freeEmails →
      create_order configured keyId freeEmails email orderId =
        Except.error (400, "This email does not require payment.")) ∧
    (configured = true → normEmail email ∉ freeEmails →
      create_order configured keyId freeEmails email orderId =
        Except.ok ⟨orderId, 99 * 100, "INR", keyId⟩) := by
  refine ⟨fun hc => ?_, fun hc hf => ?_, fun hc hf => ?_⟩
  · subst hc; simp [create_order]
  · subst hc; simp [create_order, hf]
  · subst hc; simp [create_order, hf]

theorem create_order_spec_witness :
    create_order false "k" [] "u@x.com" "oid" =
        Except.error (500, "Payment not configured") ∧
      create_order true "k" ["owner@x.com"] "Owner@X.com " "oid" =
        Except.error (400, "This email does not require payment.") ∧
      create_order true "k" ["owner@x.com"] "u@x.com" "oid" =
        Except.ok ⟨"oid", 99 * 100, "INR", "k"⟩ :=
  ⟨(create_order_spec false "k" [] "u@x.com" "oid").1 rfl,
    (create_order_spec true "k" ["owner@x.com"] "Owner@X.com " "oid").2.1 rfl
      (by decide),
    (create_order_spec true "k" ["owner@x.com"] "u@x.com" "oid").2.2 rfl
      (by decide)⟩

/-! ## Idempotence of the email normalization -/

theorem toNat_ofNat_bounded : ∀ n < 123, (Char.ofNat n).toNat = n := by decide

theorem lcChar_lcChar (c : Char) : lcChar (lcChar c) = lcChar c := by
  by_cases h : (65 ≤ c.toNat && c.toNat ≤ 90) = true
  · have hb : 65 ≤ c.toNat ∧ c.toNat ≤ 90 := by simpa using h
    have h1 : lcChar c = Char.ofNat (c.toNat + 32) := by
      unfold lcChar; rw [if_pos h]
    have h32 : (Char.ofNat (c.toNat + 32)).toNat = c.toNat + 32 :=
      toNat_ofNat_bounded _ (by omega)
    rw [h1]
    unfold lcChar
    rw [if_neg]
    simp only [h32, Bool.and_eq_true, decide_eq_true_eq, not_and]
    omega
  · have h1 : lcChar c = c := by unfold lcChar; rw [if_neg h]
    rw [h1, h1]

theorem isWs_lcChar (c : Char) : isWs (lcChar c) = isWs c := by
  by_cases h : (65 ≤ c.toNat && c.toNat ≤ 90) = true
  · have hb : 65 ≤ c.toNat ∧ c.toNat ≤ 90 := by simpa using h
    have h1 : lcChar c = Char.ofNat (c.toNat + 32) := by
      unfold lcChar; rw [if_pos h]
    have h32 : (Char.ofNat (c.toNat + 32)).toNat = c.toNat + 32 :=
      toNat_ofNat_bounded _ (by omega)
    have hl : isWs (Char.ofNat (c.toNat + 32)) = false := by
      unfold isWs; simp only [h32]; simp only [Bool.or_eq_false_iff,
        decide_eq_false_iff_not]
      omega
    have hr : isWs c = false := by
      unfold isWs; simp only [Bool.or_eq_false_iff, decide_eq_false_iff_not]
      omega
    rw [h1, hl, hr]
  · have h1 : lcChar c = c := by unfold lcChar; rw [if_neg h]
    rw [h1]

theorem dropWhile_map_lc (l : List Char) :
    (l.map lcChar).dropWhile isWs = (l.dropWhile isWs).map lcChar := by
  induction l with
  | nil => rfl
  | cons c cs ih =>
    simp only [List.map_cons, List.dropWhile_cons, isWs_lcChar]
    cases h : isWs c <;> simp [h, ih]

theorem head?_dropWhile_false (p : Char → Bool) (l : List Char) (c : Char)
    (h : (l.dropWhile p).head? = some c) : p c = false := by
  induction l with
  | nil => simp at h
  | cons a as ih =>
    rw [List.dropWhile_cons] at h
    by_cases hp : p a = true
    · rw [if_pos hp] at h; exact ih h
    · rw [if_neg hp] at h
      simp only [List.head?_cons, Option.some.injEq] at h
      subst h
      exact Bool.not_eq_true _ |>.mp hp

theorem getLast?_dropWhile (p : Char → Bool) (l : List Char)
    (h : l.dropWhile p ≠ []) : (l.dropWhile p).getLast? = l.getLast? := by
  induction l with
  | nil => simp at h
  | cons a as ih =>
    rw [List.dropWhile_cons] at h ⊢
    by_cases hp : p a = true
    · rw [if_pos hp] at h ⊢
      have has : as ≠ [] := by
        intro he; subst he; simp at h
      rw [ih h]
      cases as with
      | nil => exact absurd rfl has
      | cons b bs => rw [List.getLast?_cons_cons]
    · rw [if_neg hp]

theorem trimL_head (l : List Char) (c : Char) (h : (trimL l).head? = some c) :
    isWs c = false := by
  unfold trimL at h
  rw [List.head?_reverse] at h
  have hne : ((l.dropWhile isWs).reverse.dropWhile isWs) ≠ [] := by
    intro he; rw [he] at h; simp at h
  rw [getLast?_dropWhile _ _ hne, List.getLast?_reverse] at h
  exact head?_dropWhile_false _ _ c h

theorem trimL_getLast (l : List Char) (c : Char)
    (h : (trimL l).getLast? = some c) : isWs c = false := by
  unfold trimL at h
  rw [List.getLast?_reverse] at h
  exact head?_dropWhile_false _ _ c h

theorem dropWhile_eq_self_of_head (p : Char → Bool) (l : List Char)
    (h : ∀ c, l.head? = some c → p c = false) : l.dropWhile p = l := by
  cases l with
  | nil => rfl
  | cons a as =>
    rw [List.dropWhile_cons, if_neg]
    simp [h a rfl]

theorem trimL_trimL (l : List Char) : trimL (trimL l) = trimL l := by
  have h1 : (trimL l).dropWhile isWs = trimL l :=
    dropWhile_eq_self_of_head _ _ (trimL_head l)
  show (((trimL l).dropWhile isWs).reverse.dropWhile isWs).reverse = trimL l
  rw [h1]
  have h2 : (trimL l).reverse.dropWhile isWs = (trimL l).reverse :=
    dropWhile_eq_self_of_head _ _ fun c hc =>
      trimL_getLast l c (by rwa [List.head?_reverse] at hc)
  rw [h2, List.reverse_reverse]

theorem trimL_map_lc (t : List Char) :
    trimL (t.map lcChar) = (trimL t).map lcChar := by
  unfold trimL
  rw [dropWhile_map_lc, ← List.map_reverse, dropWhile_map_lc,
    ← List.map_reverse]

theorem normEmail_idem (s : String) : normEmail (normEmail s) = normEmail s := by
  show (⟨(trimL ((trimL s.data).map lcChar)).map lcChar⟩ : String) =
    ⟨(trimL s.data).map lcChar⟩
  rw [trimL_map_lc, trimL_trimL, List.map_map]
  congr 1
  exact List.map_congr_left fun c _ => lcChar_lcChar c

/-! ## Claim theorem: free-tier activation -/

/-- C7: with the payment provider configured, `activate_license` on a
free-tier email returns success with the expiry produced by
`_set_license(email, months=12)` and the correspondingly rewritten
ledger, for either outcome of signature verification (the verification
is bypassed: `verifyOk` is universally quantified and never consulted).
For a free-tier email that grant ignores the 12-month argument and
writes the sentinel far-future expiry. -/
theorem activate_free_tier (verifyOk : Bool) (today : Date)
    (freeEmails : List String) (ledger : Ledger) (email : String)
    (hfree : normEmail email ∈ freeEmails) :
    activate_license true verifyOk today freeEmails ledger email =
        ActOut.success sentinelExpiry
          (setRec ledger (normEmail email) (some sentinelExpiry)) ∧
      set_license today freeEmails ledger (normEmail email) 12 =
        some (sentinelExpiry,
          setRec ledger (normEmail email) (some sentinelExpiry)) := by
  have hset : set_license today freeEmails ledger (normEmail email) 12 =
      some (sentinelExpiry,
        setRec ledger (normEmail email) (some sentinelExpiry)) := by
    unfold set_license
    rw [normEmail_idem]
    rw [if_pos (by simpa using hfree)]
  refine ⟨?_, hset⟩
  unfold activate_license
  rw [if_neg (by simp)]
  rw [if_pos (by simpa using hfree)]
  rw [hset]

theorem activate_free_tier_witness :
    activate_license true false ⟨2026, 10, 12⟩ ["owner@x.com"] []
        "Owner@X.com " =
        ActOut.success sentinelExpiry [("owner@x.com", some sentinelExpiry)] ∧
      set_license ⟨2026, 10, 12⟩ ["owner@x.com"] [] "owner@x.com" 12 =
        some (sentinelExpiry, [("owner@x.com", some sentinelExpiry)]) :=
  activate_free_tier false ⟨2026, 10, 12⟩ ["owner@x.com"] [] "Owner@X.com "
    (by decide)

/-! ## Date lemmas -/

theorem daysInMonth_pos (y m : Nat) : 1 ≤ daysInMonth y m := by
  unfold daysInMonth
  repeat' split
  all_goals omega

theorem daysInMonth_le (y m : Nat) : daysInMonth y m ≤ 31 := by
  unfold daysInMonth
  repeat' split
  all_goals omega

theorem mkDate_valid (y m dd : Nat) (d : Date) (h : mkDate y m dd = some d) :
    validCivil d = true ∧ d.year ≤ 9999 := by
  unfold mkDate at h
  by_cases hc : (1 ≤ y && y ≤ 9999 && 1 ≤ m && m ≤ 12 && 1 ≤ dd &&
      dd ≤ daysInMonth y m) = true
  · rw [if_pos hc] at h
    simp only [Option.some.injEq] at h
    subst h
    simp only [Bool.and_eq_true, decide_eq_true_eq] at hc
    simp only [validCivil, Bool.and_eq_true, decide_eq_true_eq]
    omega
  · rw [if_neg hc] at h
    exact absurd h (by simp)

theorem parseDate_valid (s : String) (d : Date) (h : parseDate s = some d) :
    validCivil d = true ∧ d.year ≤ 9999 := by
  unfold parseDate at h
  repeat' split at h
  all_goals first
    | exact mkDate_valid _ _ _ _ h
    | exact absurd h (by simp)

theorem validCivil_nextDay (d : Date) (h : validCivil d = true) :
    validCivil (nextDay d) = true := by
  simp only [validCivil, Bool.and_eq_true, decide_eq_true_eq] at h
  unfold nextDay
  split
  · simp only [validCivil, Bool.and_eq_true, decide_eq_true_eq]
    next hday => omega
  · split
    · simp only [validCivil, Bool.and_eq_true, decide_eq_true_eq]
      have := daysInMonth_pos d.year (d.month + 1)
      omega
    · simp only [validCivil, Bool.and_eq_true, decide_eq_true_eq]
      have := daysInMonth_pos (d.year + 1) 1
      omega

theorem validCivil_addDays (d : Date) (n : Nat) (h : validCivil d = true) :
    validCivil (addDays d n) = true := by
  induction n with
  | zero => exact h
  | succ k ih => exact validCivil_nextDay _ ih

theorem digit?_digitChar : ∀ k < 10, digit? (digitChar k) = some k := by decide

theorem parseDate_formatDate (d : Date) (h : validCivil d = true)
    (h9 : d.year ≤ 9999) : parseDate (formatDate d) = some d := by
  obtain ⟨y, m, dd⟩ := d
  simp only [validCivil, Bool.and_eq_true, decide_eq_true_eq] at h
  simp only at h9
  have hdle : daysInMonth y m ≤ 31 := daysInMonth_le y m
  have hfmt : formatDate ⟨y, m, dd⟩ =
      ⟨[digitChar (y / 1000 % 10), digitChar (y / 100 % 10),
        digitChar (y / 10 % 10), digitChar (y % 10), '-',
        digitChar (m / 10 % 10), digitChar (m % 10), '-',
        digitChar (dd / 10 % 10), digitChar (dd % 10)]⟩ := rfl
  rw [hfmt]
  have ey1 : digit? (digitChar (y / 1000 % 10)) = some (y / 1000 % 10) :=
    digit?_digitChar _ (by omega)
  have ey2 : digit? (digitChar (y / 100 % 10)) = some (y / 100 % 10) :=
    digit?_digitChar _ (by omega)
  have ey3 : digit? (digitChar (y / 10 % 10)) = some (y / 10 % 10) :=
    digit?_digitChar _ (by omega)
  have ey4 : digit? (digitChar (y % 10)) = some (y % 10) :=
    digit?_digitChar _ (by omega)
  have em1 : digit? (digitChar (m / 10 % 10)) = some (m / 10 % 10) :=
    digit?_digitChar _ (by omega)
  have em2 : digit? (digitChar (m % 10)) = some (m % 10) :=
    digit?_digitChar _ (by omega)
  have ed1 : digit? (digitChar (dd / 10 % 10)) = some (dd / 10 % 10) :=
    digit?_digitChar _ (by omega)
  have ed2 : digit? (digitChar (dd % 10)) = some (dd % 10) :=
    digit?_digitChar _ (by omega)
  have hy : 1000 * (y / 1000 % 10) + 100 * (y / 100 % 10) +
      10 * (y / 10 % 10) + y % 10 = y := by omega
  have hm : 10 * (m / 10 % 10) + m % 10 = m := by omega
  have hd : 10 * (dd / 10 % 10) + dd % 10 = dd := by omega
  simp only [parseDate, d4, d2, ey1, ey2, ey3, ey4, em1, em2, ed1, ed2,
    hy, hm, hd]
  have hcond : (decide True && decide True) = true := by decide
  rw [if_pos hcond]
  unfold mkDate
  rw [if_pos]
  simp only [Bool.and_eq_true, decide_eq_true_eq]
  omega

/-! ## Ledger lemmas -/

theorem lookupRec_setRec_self (l : Ledger) (e : String) (v : Option String) :
    lookupRec (setRec l e v) e = some v := by
  induction l with
  | nil => simp [setRec, lookupRec]
  | cons kv rest ih =>
    obtain ⟨k, w⟩ := kv
    by_cases hk : k = e
    · subst hk
      simp [setRec, lookupRec]
    · simp only [setRec, lookupRec, if_neg hk]
      exact ih

/-! ## The non-free branch of `_set_license` as base-date arithmetic -/

theorem pyAddDays_some (d : Date) (n : Nat) (nd : Date)
    (h : pyAddDays d n = some nd) : nd = addDays d n ∧ nd.year ≤ 9999 := by
  simp only [pyAddDays] at h
  by_cases hy : (addDays d n).year ≤ 9999
  · rw [if_pos hy] at h
    simp only [Option.some.injEq] at h
    subst h
    exact ⟨rfl, hy⟩
  · rw [if_neg hy] at h
    cases h

theorem set_license_nonfree (today : Date) (freeEmails : List String)
    (ledger : Ledger) (email : String) (months : Nat)
    (hfree : normEmail email ∉ freeEmails) :
    set_license today freeEmails ledger email months =
      (pyAddDays (specBase today ledger (normEmail email)) (30 * months)).map
        (fun nd =>
          (formatDate nd,
            setRec ledger (normEmail email) (some (formatDate nd)))) := by
  unfold set_license
  rw [if_neg (by simpa using hfree)]
  cases hl : lookupRec ledger (normEmail email) with
  | none =>
    cases hp : pyAddDays today (30 * months) <;>
      simp [specBase, hl, hp]
  | some r =>
    cases r with
    | none =>
      cases hp : pyAddDays today (30 * months) <;>
        simp [specBase, hl, hp]
    | some s =>
      cases hps : parseDate s with
      | none =>
        cases hp : pyAddDays today (30 * months) <;>
          simp [specBase, hl, hps, hp]
      | some old =>
        cases hlt : dateLt today old with
        | true =>
          cases hp : pyAddDays old (30 * months) <;>
            simp [specBase, maxDate, hl, hps, hlt, hp]
        | false =>
          cases hp : pyAddDays today (30 * months) <;>
            simp [specBase, maxDate, hl, hps, hlt, hp]

theorem specBase_valid (today : Date) (ledger : Ledger) (e : String)
    (htoday : validCivil today = true) (h9 : today.year ≤ 9999) :
    validCivil (specBase today ledger e) = true ∧
      (specBase today ledger e).year ≤ 9999 := by
  cases hl : lookupRec ledger e with
  | none => simp only [specBase, hl]; exact ⟨htoday, h9⟩
  | some r =>
    cases r with
    | none => simp only [specBase, hl]; exact ⟨htoday, h9⟩
    | some s =>
      cases hps : parseDate s with
      | none => simp only [specBase, hl, hps]; exact ⟨htoday, h9⟩
      | some old =>
        cases hlt : dateLt today old with
        | true =>
          simp [specBase, maxDate, hl, hps, hlt]
          exact parseDate_valid s old hps
        | false =>
          simp [specBase, maxDate, hl, hps, hlt]
          exact ⟨htoday, h9⟩

/-! ## Claim theorems: license extension arithmetic and the
written-expiry invariant -/

/-- C3: for a non-free-tier email, `_set_license` computes the base date
as the maximum of today and the stored expiry when that expiry is
present, parseable and strictly after today (an expired, unparseable or
absent record leaves the base at today), then writes and returns
base + months × 30 days rendered in the fixed date format; `none` models
the uncaught overflow past Python's `date.max`.  In particular an
unexpired record stacks the extension onto its remaining time while an
expired, unparseable or absent record starts from today. -/
theorem set_license_base_max (today : Date) (freeEmails : List String)
    (ledger : Ledger) (email : String) (months : Nat)
    (hfree : normEmail email ∉ freeEmails) :
    set_license today freeEmails ledger email months =
      (pyAddDays (specBase today ledger (normEmail email)) (30 * months)).map
        (fun nd =>
          (formatDate nd,
            setRec ledger (normEmail email) (some (formatDate nd)))) :=
  set_license_nonfree today freeEmails ledger email months hfree

set_option maxRecDepth 4000 in
theorem set_license_base_max_witness :
    set_license ⟨2026, 10, 12⟩ [] [("a@b.c", some "2026-10-22")] "a@b.c" 1 =
        some ("2026-11-21", [("a@b.c", some "2026-11-21")]) ∧
      set_license ⟨2026, 10, 12⟩ [] [("a@b.c", some "2026-10-07")] "a@b.c" 1 =
        some ("2026-11-11", [("a@b.c", some "2026-11-11")]) := by
  constructor
  · exact (set_license_base_max ⟨2026, 10, 12⟩ [] [("a@b.c", some "2026-10-22")]
      "a@b.c" 1 (by decide)).trans (by decide)
  · exact (set_license_base_max ⟨2026, 10, 12⟩ [] [("a@b.c", some "2026-10-07")]
      "a@b.c" 1 (by decide)).trans (by decide)

/-- C10: whenever `_set_license` completes and writes a record (today
being a real date within Python's range), the written expiry string
parses back as a date in the fixed format, the written record is the one
looked up for that email afterwards, and `_check_license` can never take
its malformed-expiry diagnostic branch for that email: its answer on the
new ledger is the free-tier sentinel or the date comparison against the
parsed written expiry. -/
theorem set_license_writes_parseable (today : Date) (freeEmails : List String)
    (ledger : Ledger) (email : String) (months : Nat) (estr : String)
    (l2 : Ledger)
    (htoday : validCivil today = true) (h9 : today.year ≤ 9999)
    (hset : set_license today freeEmails ledger email months =
      some (estr, l2)) :
    ∃ d, parseDate estr = some d ∧
      lookupRec l2 (normEmail email) = some (some estr) ∧
      malformedExpiryBranch l2 (normEmail email) = false ∧
      ∀ t2 : Date, check_license t2 freeEmails l2 email =
        if normEmail email ∈ freeEmails then (true, some sentinelExpiry)
        else (!dateLt d t2, some estr) := by
  by_cases hf : normEmail email ∈ freeEmails
  · have hset2 : estr = sentinelExpiry ∧
        l2 = setRec ledger (normEmail email) (some sentinelExpiry) := by
      unfold set_license at hset
      rw [if_pos (by simpa using hf)] at hset
      simp only [Option.some.injEq, Prod.mk.injEq] at hset
      exact ⟨hset.1.symm, hset.2.symm⟩
    obtain ⟨he, hl⟩ := hset2
    subst he; subst hl
    refine ⟨⟨2099, 12, 31⟩, by decide, lookupRec_setRec_self _ _ _, ?_, ?_⟩
    · simp [malformedExpiryBranch, lookupRec_setRec_self]
      decide
    · intro t2
      rw [if_pos hf]
      simp [check_license, hf]
  · rw [set_license_nonfree today freeEmails ledger email months hf] at hset
    cases hpa : pyAddDays (specBase today ledger (normEmail email))
        (30 * months) with
    | none => rw [hpa] at hset; cases hset
    | some nd =>
      rw [hpa] at hset
      simp only [Option.map_some', Option.some.injEq, Prod.mk.injEq] at hset
      obtain ⟨he, hl⟩ := hset
      subst he; subst hl
      obtain ⟨hbase, hbase9⟩ :=
        specBase_valid today ledger (normEmail email) htoday h9
      obtain ⟨hnd, hnd9⟩ := pyAddDays_some _ _ _ hpa
      have hvnd : validCivil nd = true := by
        rw [hnd]; exact validCivil_addDays _ _ hbase
      have hparse : parseDate (formatDate nd) = some nd :=
        parseDate_formatDate nd hvnd hnd9
      have hne : ¬(formatDate nd = "") := by
        intro hcon
        rw [hcon, parseDate_empty] at hparse
        cases hparse
      refine ⟨nd, hparse, lookupRec_setRec_self _ _ _, ?_, ?_⟩
      · simp [malformedExpiryBranch, lookupRec_setRec_self, hparse]
      · intro t2
        rw [if_neg hf]
        cases hlt : dateLt nd t2 <;>
          simp [check_license, hf, lookupRec_setRec_self, hne, hparse, hlt]

set_option maxRecDepth 4000 in
theorem set_license_writes_parseable_witness :
    (parseDate "2026-11-11").isSome = true ∧
      malformedExpiryBranch [("a@b.c", some "2026-11-11")] "a@b.c" = false := by
  obtain ⟨d, h1, h2, h3, h4⟩ :=
    set_license_writes_parseable ⟨2026, 10, 12⟩ [] [] "a@b.c" 1 "2026-11-11"
      [("a@b.c", some "2026-11-11")] (by decide) (by decide) (by decide)
  refine ⟨by rw [h1]; rfl, ?_⟩
  have : normEmail "a@b.c" = "a@b.c" := by decide
  rwa [this] at h3

end AIWA
